import Mathlib

/-!
Shallow embedding of the MoneyWiz CRM core (`src/app.py`): the sync engine
(`sync_data_from_excel`), the user-directory bootstrap (`init_db`), the
salesperson order mutations (the add / update / delete form handlers in
`main`), and the managerial "Max Product per Store" aggregation.

Python strings are modelled as lists of character codes (`Str := List Nat`);
Python floats as rationals; SQL NULL-able columns as `Option`.
-/

/-- Python strings modelled as lists of character codes. -/
abbrev Str := List Nat

/-- Converts a Lean string literal to its character-code list, for writing
concrete test data. -/
def strOf (s : String) : Str :=
  (s.toList).map Char.toNat

/-- Whitespace predicate of Python `str.strip()` (space, tab, LF, VT, FF, CR). -/
def isSpace (n : Nat) : Bool :=
  decide (n = 32 ∨ n = 9 ∨ n = 10 ∨ n = 11 ∨ n = 12 ∨ n = 13)

/-- Character-level lowercasing of Python `str.lower()` on the ASCII letters:
codes 65..90 are shifted to 97..122, everything else is unchanged. -/
def lowerChar (n : Nat) : Nat :=
  if 65 ≤ n ∧ n ≤ 90 then n + 32 else n

/-- Python `str.lower()`. -/
def lowerStr (s : Str) : Str :=
  s.map lowerChar

/-- Python `str.strip()`: drop whitespace from the front, then from the back. -/
def trimStr (s : Str) : Str :=
  (((s.dropWhile isSpace).reverse.dropWhile isSpace)).reverse

/-- The per-value normalization `astype(str).str.strip().str.lower()` of
`sync_data_from_excel` (app.py line 29); `astype(str)` is the identity on
values that are already strings. -/
def normStr (s : Str) : Str :=
  lowerStr (trimStr s)

/-- A row of the `sales` table (schema per the INSERT of app.py lines
129-134); Python floats are rationals, and the four identifier-like columns
the sync normalizer touches, which SQL may hold as NULL when the imported
spreadsheet lacks the column, are `Option Str` (`none` = NULL/absent). -/
structure SRow where
  CustomerName : Str
  CustomerType : Str
  Product : Str
  Quantity : Int
  Region : Option Str
  Date : Str
  UnitPrice : Rat
  StoreLocation : Option Str
  Discount : Rat
  Salesperson : Option Str
  TotalPrice : Rat
  PaymentMethod : Str
  Promotion : Str
  Returned : Str
  OrderID : Str
  ShippingCost : Rat
  RegionManager : Option Str
deriving DecidableEq

/-- A row of the `users` table (app.py line 48): username PRIMARY KEY,
password hash, role. -/
structure UserRec where
  username : Str
  password : Str
  role : Str
deriving DecidableEq

/-- The persistent state: the `sales` table and the `users` table, each as the
ordered list of its rows. -/
structure DBState where
  sales : List SRow
  users : List UserRec
deriving DecidableEq

/-- Stands for the SHA-256 hex digest of "password123" (app.py line 34); the
claims depend only on it being a fixed string. -/
def default_pw : Str := strOf ("sha256:password123")

/-- Stands for the SHA-256 hex digest of "admin123" (app.py line 49). -/
def admin_pw : Str := strOf ("sha256:admin123")

/-- The row built by the add-order INSERT (app.py lines 129-134): Region,
StoreLocation and RegionManager are lowercased on write, Salesperson is the
session user, and TotalPrice is recomputed as `qty*u_p - disc + ship`
rather than taken from the caller. -/
def mkOrderRow (name c_type prod : Str) (qty : Int) (u_p disc : Rat)
    (reg loc : Str) (ship : Rat) (pay prom r_man ret_status user sys_oid date : Str) :
    SRow :=
  { CustomerName := name
    CustomerType := c_type
    Product := prod
    Quantity := qty
    Region := some (lowerStr reg)
    Date := date
    UnitPrice := u_p
    StoreLocation := some (lowerStr loc)
    Discount := disc
    Salesperson := some user
    TotalPrice := (qty : Rat) * u_p - disc + ship
    PaymentMethod := pay
    Promotion := prom
    Returned := ret_status
    OrderID := sys_oid
    ShippingCost := ship
    RegionManager := some (lowerStr r_man) }

/-- The add-order INSERT (app.py lines 127-135): appends one row to `sales`,
unconditionally. -/
def addOrder (tbl : List SRow) (name c_type prod : Str) (qty : Int)
    (u_p disc : Rat) (reg loc : Str) (ship : Rat)
    (pay prom r_man ret_status user sys_oid date : Str) : List SRow :=
  tbl ++ [mkOrderRow name c_type prod qty u_p disc reg loc ship pay prom r_man
    ret_status user sys_oid date]

/-- The SET-clause inputs of the full-update form (app.py lines 149-171);
there is no TotalPrice input — the UPDATE recomputes it. -/
structure UpdFields where
  name : Str
  c_type : Str
  prod : Str
  qty : Int
  u_p : Rat
  disc : Rat
  reg : Str
  loc : Str
  pay : Str
  prom : Str
  ret : Str
  ship : Rat
deriving DecidableEq

/-- Effect of the scoped UPDATE statement (app.py lines 170-171) on one row:
the row changes exactly when `OrderID = oid AND Salesperson = user` (SQL
equality against NULL is false, hence `some user`); TotalPrice is set to
`qty*u_p - disc + ship`; Date, OrderID, Salesperson, RegionManager keep
their stored values. -/
def updateRow (oid user : Str) (f : UpdFields) (r : SRow) : SRow :=
  if r.OrderID = oid ∧ r.Salesperson = some user then
    { r with
      CustomerName := f.name
      CustomerType := f.c_type
      Product := f.prod
      Quantity := f.qty
      Region := some (lowerStr f.reg)
      UnitPrice := f.u_p
      StoreLocation := some (lowerStr f.loc)
      Discount := f.disc
      TotalPrice := (f.qty : Rat) * f.u_p - f.disc + f.ship
      PaymentMethod := f.pay
      Promotion := f.prom
      Returned := f.ret
      ShippingCost := f.ship }
  else r

/-- The scoped UPDATE over the whole `sales` table (app.py lines 169-172). -/
def updateOrder (tbl : List SRow) (oid user : Str) (f : UpdFields) : List SRow :=
  tbl.map (updateRow oid user f)

/-- The scoped DELETE (app.py lines 190-193): removes exactly the rows with
`OrderID = oid AND Salesperson = user`. -/
def deleteOrder (tbl : List SRow) (oid user : Str) : List SRow :=
  tbl.filter (fun r => !(r.OrderID == oid && r.Salesperson == some user))

/-- The normalization loop of `sync_data_from_excel` (app.py lines 26-29):
each of Salesperson, RegionManager, Region, StoreLocation is
strip+lower normalized when the column is present (`if col in df.columns`),
and silently left absent otherwise; all other fields pass through. -/
def normalizeRow (r : SRow) : SRow :=
  { r with
    Salesperson := r.Salesperson.map normStr
    RegionManager := r.RegionManager.map normStr
    Region := r.Region.map normStr
    StoreLocation := r.StoreLocation.map normStr }

/-- SQLite `INSERT OR IGNORE` against the username PRIMARY KEY (app.py
lines 39, 50): a no-op when the username already exists, an append
otherwise. -/
def insertOrIgnore (users : List UserRec) (u : UserRec) : List UserRec :=
  if users.any (fun x => x.username == u.username) then users else users ++ [u]

/-- The user-provisioning loop of `sync_data_from_excel` (app.py lines
34-41): for each distinct value of the (already normalized) Salesperson and
RegionManager columns, INSERT OR IGNORE a user with the shared default
password hash and the matching role. -/
def provisionUsers (users : List UserRec) (ndf : List SRow) : List UserRec :=
  let spNames := (ndf.filterMap (fun r => r.Salesperson)).dedup
  let rmNames := (ndf.filterMap (fun r => r.RegionManager)).dedup
  let newUsers :=
    spNames.map (fun v => UserRec.mk v default_pw (strOf ("Salesperson"))) ++
    rmNames.map (fun v => UserRec.mk v default_pw (strOf ("Region Manager")))
  newUsers.foldl insertOrIgnore users

/-- `sync_data_from_excel` (app.py lines 20-43). The row-source argument
models the three cases the code distinguishes: `none` — `customers.xlsx`
does not exist, so the body is skipped entirely; `some (.error _)` —
reading raises, the exception is caught and reported via `st.error`;
`some (.ok df)` — the frame is normalized column-wise, appended
(`if_exists="append"`) to `sales`, and users are provisioned from the
normalized frame. The Bool result records whether an error was reported. -/
def sync_data_from_excel (file : Option (Except Str (List SRow)))
    (db : DBState) : DBState × Bool :=
  match file with
  | none => (db, false)
  | some (Except.error _) => (db, true)
  | some (Except.ok df) =>
    let ndf := df.map normalizeRow
    (DBState.mk (db.sales ++ ndf) (provisionUsers db.users ndf), false)

/-- `init_db` (app.py lines 45-51): CREATE TABLE IF NOT EXISTS (a no-op on
the model) then INSERT OR IGNORE the default admin. -/
def init_db (users : List UserRec) : List UserRec :=
  insertOrIgnore users
    (UserRec.mk (strOf ("admin")) admin_pw (strOf ("Region Manager")))

/-- Credential lookup against the users table (first row matching the
username; the PRIMARY KEY keeps usernames unique). -/
def lookupUser (users : List UserRec) (n : Str) : Option UserRec :=
  users.find? (fun u => u.username == n)

/-- Lexicographic comparison of character-code lists, the string order pandas
sorts group keys by. -/
def strLe : Str → Str → Bool
  | [], _ => true
  | _ :: _, [] => false
  | a :: as, b :: bs => if a < b then true else if b < a then false else strLe as bs

/-- Lexicographic comparison of (StoreLocation, Product) group keys. -/
def keyLe (x y : Str × Str) : Bool :=
  if x.1 = y.1 then strLe x.2 y.2 else strLe x.1 y.1

/-- Insertion into a sorted list, the building block of the key sort. -/
def insertSorted (x : Str × Str) : List (Str × Str) → List (Str × Str)
  | [] => [x]
  | y :: ys => if keyLe x y then x :: y :: ys else y :: insertSorted x ys

/-- Sorts the distinct group keys, as `groupby` (with its default
`sort=True`) presents groups in ascending key order. -/
def sortKeys (l : List (Str × Str)) : List (Str × Str) :=
  l.foldr insertSorted []

/-- The distinct (StoreLocation, Product) pairs of the frame, in sorted
order; rows whose StoreLocation is NULL are dropped, as `groupby` drops
rows with a null group key. -/
def groupKeys (df : List SRow) : List (Str × Str) :=
  sortKeys ((df.filterMap (fun r => r.StoreLocation.map (fun s => (s, r.Product)))).dedup)

/-- Sum of TotalPrice over the rows of one (StoreLocation, Product) group. -/
def sumForKey (df : List SRow) (k : Str × Str) : Rat :=
  ((df.filter (fun r => r.StoreLocation == some k.1 && r.Product == k.2)).map
    (fun r => r.TotalPrice)).sum

/-- The frame `grouped = df.groupby(["StoreLocation","Product"])["TotalPrice"]
.sum().reset_index()` (app.py line 241): one row per distinct key, in sorted
key order, holding the per-group TotalPrice sum. -/
def groupedPairs (df : List SRow) : List ((Str × Str) × Rat) :=
  (groupKeys df).map (fun k => (k, sumForKey df k))

/-- The fold `idxmax` performs over one store's group rows: keeps the current
best and replaces it only on a strictly larger value, so the first-scanned
maximum wins ties. -/
def idxmaxStep (b c : (Str × Str) × Rat) : (Str × Str) × Rat :=
  if b.2 < c.2 then c else b

/-- `idxmax` over a list of grouped rows: the first row attaining the
maximal summed TotalPrice, `none` on an empty list. -/
def idxmaxVal : List ((Str × Str) × Rat) → Option ((Str × Str) × Rat)
  | [] => none
  | x :: xs => some (xs.foldl idxmaxStep x)

/-- The distinct stores of the grouped frame, in its scan order. -/
def storesOf (g : List ((Str × Str) × Rat)) : List Str :=
  (g.map (fun q => q.1.1)).dedup

/-- The "Max Product per Store" report (app.py lines 240-243): group by
(StoreLocation, Product), sum TotalPrice, then per store take the grouped
row `idxmax` selects; yields (store, product, summed TotalPrice) triples. -/
def maxProductPerStore (df : List SRow) : List (Str × Str × Rat) :=
  (storesOf (groupedPairs df)).filterMap (fun s =>
    (idxmaxVal ((groupedPairs df).filter (fun q => q.1.1 == s))).map
      (fun m => (s, m.1.2, m.2)))

/-- Modelled from the spec: `dashboardSummary()` belongs to the REST/API
front-end variant that is not under src/; per §6 of the spec it returns the
total sales amount (sum of TotalPrice), the distinct customer count, the
total order count, and the mean order value, where the mean is 0 when no
orders exist rather than a division error. -/
def dashboardSummary (tbl : List SRow) : Rat × Nat × Nat × Rat :=
  let total := (tbl.map (fun r => r.TotalPrice)).sum
  let customers := (tbl.map (fun r => r.CustomerName)).dedup.length
  let orders := tbl.length
  (total, customers, orders, if orders = 0 then 0 else total / (orders : Rat))
/-- An all-empty sales row, used as the base for concrete test data; its four
identifier-like columns are NULL, as for a row imported from a spreadsheet
that lacks those columns. -/
def emptySRow : SRow :=
  { CustomerName := []
    CustomerType := []
    Product := []
    Quantity := 0
    Region := none
    Date := []
    UnitPrice := 0
    StoreLocation := none
    Discount := 0
    Salesperson := none
    TotalPrice := 0
    PaymentMethod := []
    Promotion := []
    Returned := []
    OrderID := []
    ShippingCost := 0
    RegionManager := none }

/-- A concrete timestamp-shaped order identifier, reused to build a
collision. -/
def oidX : Str := strOf ("ORD-20250101120000")

/-- A concrete pre-existing sales row already holding `oidX`. -/
def collidingRow : SRow :=
  { emptySRow with OrderID := oidX }

/-- A concrete sales row for the aggregation example: store, product and
TotalPrice set, everything else empty. -/
def exRow (st pr : String) (tp : Rat) : SRow :=
  { emptySRow with
    StoreLocation := some (strOf st)
    Product := strOf pr
    TotalPrice := tp }

/-- The spec's aggregation example: store A with product totals
Laptop 500 (as 200 + 300) and Phone 300, store B with Tablet 900. -/
def exampleDf : List SRow :=
  [exRow ("A") ("Laptop") 200,
   exRow ("A") ("Laptop") 300,
   exRow ("A") ("Phone") 300,
   exRow ("B") ("Tablet") 900]
theorem lowerChar_idem (n : Nat) : lowerChar (lowerChar n) = lowerChar n := by
  unfold lowerChar
  split
  · split <;> omega
  · rfl

theorem isSpace_lowerChar (n : Nat) : isSpace (lowerChar n) = isSpace n := by
  unfold lowerChar isSpace
  split
  · simp only [decide_eq_decide]; omega
  · rfl

theorem lowerStr_idem (s : Str) : lowerStr (lowerStr s) = lowerStr s := by
  unfold lowerStr
  rw [List.map_map]
  exact List.map_congr_left fun n _ => lowerChar_idem n

theorem head_not_space_of_dropWhile_self (m : Str) (h : m.dropWhile isSpace = m) :
    ∀ x, m.head? = some x → isSpace x = false := by
  intro x hx
  cases m with
  | nil => simp at hx
  | cons a as =>
    have hax : a = x := by simpa using hx
    cases hval : isSpace x with
    | false => rfl
    | true =>
      rw [← hax] at hval
      rw [List.dropWhile_cons_of_pos hval] at h
      obtain ⟨pre, hpre⟩ := as.dropWhile_suffix isSpace
      have hlen : (pre ++ as.dropWhile isSpace).length = as.length := by rw [hpre]
      rw [h] at hlen
      simp at hlen
      omega

theorem dropWhile_self_of_head (m : Str)
    (h : ∀ x, m.head? = some x → isSpace x = false) :
    m.dropWhile isSpace = m := by
  cases m with
  | nil => rfl
  | cons a as =>
    have ha := h a (by simp)
    rw [List.dropWhile_cons_of_neg (by simp [ha])]

theorem dropWhile_isSpace_idem (l : Str) :
    (l.dropWhile isSpace).dropWhile isSpace = l.dropWhile isSpace := by
  induction l with
  | nil => rfl
  | cons a as ih =>
    by_cases ha : isSpace a = true
    · rw [List.dropWhile_cons_of_pos ha]; exact ih
    · rw [List.dropWhile_cons_of_neg ha, List.dropWhile_cons_of_neg ha]

theorem dropWhile_map_lowerChar (l : Str) :
    (l.map lowerChar).dropWhile isSpace = (l.dropWhile isSpace).map lowerChar := by
  induction l with
  | nil => simp
  | cons a as ih =>
    by_cases h : isSpace a
    · have h2 : isSpace (lowerChar a) := by rw [isSpace_lowerChar]; exact h
      simp [List.dropWhile_cons, h, h2, ih]
    · have h2 : ¬ isSpace (lowerChar a) := by rw [isSpace_lowerChar]; exact h
      simp [List.dropWhile_cons, h, h2]

theorem trimStr_lowerStr_comm (s : Str) :
    trimStr (lowerStr s) = lowerStr (trimStr s) := by
  unfold trimStr lowerStr
  rw [dropWhile_map_lowerChar, ← List.map_reverse, dropWhile_map_lowerChar,
    ← List.map_reverse]

theorem dropWhile_self_of_prefix (m pref : Str)
    (hm : m.dropWhile isSpace = m) (hp : ∃ rest, pref ++ rest = m) :
    pref.dropWhile isSpace = pref := by
  obtain ⟨rest, hrest⟩ := hp
  cases pref with
  | nil => rfl
  | cons a s =>
    apply dropWhile_self_of_head
    intro x hx
    simp at hx
    subst hx
    apply head_not_space_of_dropWhile_self m hm
    rw [← hrest]
    simp

theorem trimStr_idem (s : Str) : trimStr (trimStr s) = trimStr s := by
  unfold trimStr
  set a := s.dropWhile isSpace with ha
  set t := (a.reverse.dropWhile isSpace).reverse with ht
  have hfront : t.dropWhile isSpace = t := by
    apply dropWhile_self_of_prefix a t
    · rw [ha]; exact dropWhile_isSpace_idem s
    · obtain ⟨pre, hpre⟩ := a.reverse.dropWhile_suffix isSpace
      refine ⟨pre.reverse, ?_⟩
      rw [ht, ← List.reverse_append, hpre, List.reverse_reverse]
  rw [hfront, ht, List.reverse_reverse, dropWhile_isSpace_idem]

theorem normStr_idem (s : Str) : normStr (normStr s) = normStr s := by
  unfold normStr
  rw [trimStr_lowerStr_comm, trimStr_idem, lowerStr_idem]

theorem normalizeOptStr_idem (o : Option Str) :
    (o.map normStr).map normStr = o.map normStr := by
  cases o with
  | none => rfl
  | some s => simp [normStr_idem]

/-- C8: Row normalization is idempotent: the normalizer maps each of the
Salesperson, RegionManager, Region and StoreLocation fields through
trim-then-lowercase and leaves every other field unchanged, and applying it
twice yields the same row as applying it once. -/
theorem claim_C8_normalization_idempotent (r : SRow) :
    (normalizeRow r).Salesperson = r.Salesperson.map (fun s => lowerStr (trimStr s))
    ∧ (normalizeRow r).RegionManager = r.RegionManager.map (fun s => lowerStr (trimStr s))
    ∧ (normalizeRow r).Region = r.Region.map (fun s => lowerStr (trimStr s))
    ∧ (normalizeRow r).StoreLocation = r.StoreLocation.map (fun s => lowerStr (trimStr s))
    ∧ (normalizeRow r).CustomerName = r.CustomerName
    ∧ (normalizeRow r).CustomerType = r.CustomerType
    ∧ (normalizeRow r).Product = r.Product
    ∧ (normalizeRow r).Quantity = r.Quantity
    ∧ (normalizeRow r).Date = r.Date
    ∧ (normalizeRow r).UnitPrice = r.UnitPrice
    ∧ (normalizeRow r).Discount = r.Discount
    ∧ (normalizeRow r).TotalPrice = r.TotalPrice
    ∧ (normalizeRow r).PaymentMethod = r.PaymentMethod
    ∧ (normalizeRow r).Promotion = r.Promotion
    ∧ (normalizeRow r).Returned = r.Returned
    ∧ (normalizeRow r).OrderID = r.OrderID
    ∧ (normalizeRow r).ShippingCost = r.ShippingCost
    ∧ normalizeRow (normalizeRow r) = normalizeRow r := by
  refine ⟨rfl, rfl, rfl, rfl, rfl, rfl, rfl, rfl, rfl, rfl, rfl, rfl, rfl, rfl,
    rfl, rfl, rfl, ?_⟩
  unfold normalizeRow
  simp only [normalizeOptStr_idem]

/-- C10: When `customers.xlsx` does not exist the sync is a silent no-op:
the sales table and the user directory are unchanged and no error is
reported. -/
theorem claim_C10_sync_missing_file_noop (db : DBState) :
    sync_data_from_excel none db = (db, false) := rfl

/-- C9: `dashboardSummary()` on zero orders returns total sales 0, distinct
customers 0, total order count 0 and mean order value 0, with no division
error. -/
theorem claim_C9_dashboard_empty :
    dashboardSummary [] = (0, 0, 0, 0) := rfl

/-- C3: Sync appends every (normalized) source row to the sales table and
never replaces or deletes existing rows: after one sync every row's
multiplicity grows by its multiplicity in the normalized source, and after
a second sync over the same source by twice that, so pre-existing rows stay
in place and matching rows double. -/
theorem claim_C3_sync_additive (db : DBState) (df : List SRow) (r : SRow) :
    ((sync_data_from_excel (some (Except.ok df)) db).1.sales).count r
      = db.sales.count r + (df.map normalizeRow).count r
    ∧ (((sync_data_from_excel (some (Except.ok df))
          ((sync_data_from_excel (some (Except.ok df)) db).1)).1.sales)).count r
      = db.sales.count r + 2 * (df.map normalizeRow).count r := by
  constructor
  · simp [sync_data_from_excel, List.count_append]
  · simp [sync_data_from_excel, List.count_append]
    ring

/-- C1: The stored TotalPrice always satisfies
`TotalPrice = Quantity * UnitPrice - Discount + ShippingCost`: the add-order
INSERT appends a row whose TotalPrice is recomputed from its own four stored
inputs, and the update either leaves a row untouched or rewrites it with
TotalPrice recomputed from the patched inputs; neither operation accepts a
caller-supplied total. -/
theorem claim_C1_totalprice_formula (tbl : List SRow) (name c_type prod : Str)
    (qty : Int) (u_p disc : Rat) (reg loc : Str) (ship : Rat)
    (pay prom r_man ret user oid date : Str) (oid2 user2 : Str) (f : UpdFields)
    (r : SRow) :
    addOrder tbl name c_type prod qty u_p disc reg loc ship pay prom r_man ret
        user oid date
      = tbl ++ [mkOrderRow name c_type prod qty u_p disc reg loc ship pay prom
          r_man ret user oid date]
    ∧ (mkOrderRow name c_type prod qty u_p disc reg loc ship pay prom r_man ret
        user oid date).TotalPrice
      = ((mkOrderRow name c_type prod qty u_p disc reg loc ship pay prom r_man
            ret user oid date).Quantity : Rat)
          * (mkOrderRow name c_type prod qty u_p disc reg loc ship pay prom
              r_man ret user oid date).UnitPrice
        - (mkOrderRow name c_type prod qty u_p disc reg loc ship pay prom r_man
            ret user oid date).Discount
        + (mkOrderRow name c_type prod qty u_p disc reg loc ship pay prom r_man
            ret user oid date).ShippingCost
    ∧ updateOrder tbl oid2 user2 f = tbl.map (updateRow oid2 user2 f)
    ∧ (updateRow oid2 user2 f r = r
       ∨ (updateRow oid2 user2 f r).TotalPrice
           = ((updateRow oid2 user2 f r).Quantity : Rat)
               * (updateRow oid2 user2 f r).UnitPrice
             - (updateRow oid2 user2 f r).Discount
             + (updateRow oid2 user2 f r).ShippingCost) := by
  refine ⟨rfl, rfl, rfl, ?_⟩
  unfold updateRow
  split
  · right; rfl
  · left; rfl

/-- C2: The scoped UPDATE and DELETE filter by both OrderID and the owning
salesperson: any row whose Salesperson differs from the invoking identity is
left exactly as it was by the per-row update function (and the UPDATE is that
function mapped over the table), and keeps its multiplicity under DELETE. -/
theorem claim_C2_scoped_mutations_frame (oid user : Str) (f : UpdFields)
    (r : SRow) (h : r.Salesperson ≠ some user) (tbl : List SRow) :
    updateRow oid user f r = r
    ∧ updateOrder tbl oid user f = tbl.map (updateRow oid user f)
    ∧ (deleteOrder tbl oid user).count r = tbl.count r := by
  refine ⟨?_, rfl, ?_⟩
  · unfold updateRow
    rw [if_neg]
    intro hc
    exact h hc.2
  · unfold deleteOrder
    apply List.count_filter
    simp only [Bool.not_eq_true', Bool.and_eq_false_iff, beq_eq_false_iff_ne]
    right
    exact h

/-- Closed witness for C2 at a concrete row whose Salesperson differs from
the invoking user. -/
theorem claim_C2_witness :
    updateRow oidX (strOf ("alice")) (UpdFields.mk [] [] [] 1 0 0 [] [] [] [] [] 0)
        collidingRow
      = collidingRow
    ∧ updateOrder [collidingRow] oidX (strOf ("alice"))
        (UpdFields.mk [] [] [] 1 0 0 [] [] [] [] [] 0)
      = [collidingRow].map (updateRow oidX (strOf ("alice"))
          (UpdFields.mk [] [] [] 1 0 0 [] [] [] [] [] 0))
    ∧ (deleteOrder [collidingRow] oidX (strOf ("alice"))).count collidingRow
      = [collidingRow].count collidingRow :=
  claim_C2_scoped_mutations_frame oidX (strOf ("alice"))
    (UpdFields.mk [] [] [] 1 0 0 [] [] [] [] [] 0) collidingRow
    (by decide) [collidingRow]
theorem find?_append_some {p : UserRec → Bool} {l₁ : List UserRec}
    {e : UserRec} (l₂ : List UserRec) (h : l₁.find? p = some e) :
    (l₁ ++ l₂).find? p = some e := by
  rw [List.find?_append, h]
  rfl

theorem lookupUser_insertOrIgnore (users : List UserRec) (u : UserRec)
    (n : Str) (e : UserRec) (h : lookupUser users n = some e) :
    lookupUser (insertOrIgnore users u) n = some e := by
  unfold insertOrIgnore
  split
  · exact h
  · exact find?_append_some [u] h

theorem lookupUser_foldl_insertOrIgnore (l : List UserRec)
    (users : List UserRec) (n : Str) (e : UserRec)
    (h : lookupUser users n = some e) :
    lookupUser (l.foldl insertOrIgnore users) n = some e := by
  induction l generalizing users with
  | nil => exact h
  | cons u us ih => exact ih (insertOrIgnore users u) (lookupUser_insertOrIgnore users u n e h)

/-- C7: Existing user-directory entries are never overwritten: for any
username already present, its entry is unchanged by the sync engine's user
provisioning (which is what sync applies to the users table) and by the
`init_db` admin bootstrap, both of which use insert-if-absent semantics. -/
theorem claim_C7_users_never_overwritten (users : List UserRec) (n : Str)
    (e : UserRec) (h : lookupUser users n = some e) (ndf : List SRow)
    (db : DBState) (df : List SRow) :
    lookupUser (provisionUsers users ndf) n = some e
    ∧ lookupUser (init_db users) n = some e
    ∧ (sync_data_from_excel (some (Except.ok df)) db).1.users
        = provisionUsers db.users (df.map normalizeRow) := by
  refine ⟨?_, ?_, rfl⟩
  · unfold provisionUsers
    exact lookupUser_foldl_insertOrIgnore _ users n e h
  · unfold init_db
    exact lookupUser_insertOrIgnore users _ n e h

/-- Closed witness for C7: a concrete pre-existing user keeps its password
hash and role through provisioning and through the admin bootstrap. -/
theorem claim_C7_witness :
    lookupUser (provisionUsers
        [UserRec.mk (strOf ("admin")) (strOf ("oldhash")) (strOf ("Salesperson"))]
        [{ emptySRow with Salesperson := some (strOf ("admin")) }])
        (strOf ("admin"))
      = some (UserRec.mk (strOf ("admin")) (strOf ("oldhash")) (strOf ("Salesperson")))
    ∧ lookupUser (init_db
        [UserRec.mk (strOf ("admin")) (strOf ("oldhash")) (strOf ("Salesperson"))])
        (strOf ("admin"))
      = some (UserRec.mk (strOf ("admin")) (strOf ("oldhash")) (strOf ("Salesperson")))
    ∧ (sync_data_from_excel
        (some (Except.ok [{ emptySRow with Salesperson := some (strOf ("admin")) }]))
        (DBState.mk [] [UserRec.mk (strOf ("admin")) (strOf ("oldhash")) (strOf ("Salesperson"))])).1.users
      = provisionUsers
          [UserRec.mk (strOf ("admin")) (strOf ("oldhash")) (strOf ("Salesperson"))]
          ([{ emptySRow with Salesperson := some (strOf ("admin")) }].map normalizeRow) :=
  claim_C7_users_never_overwritten
    [UserRec.mk (strOf ("admin")) (strOf ("oldhash")) (strOf ("Salesperson"))]
    (strOf ("admin"))
    (UserRec.mk (strOf ("admin")) (strOf ("oldhash")) (strOf ("Salesperson")))
    (by decide)
    [{ emptySRow with Salesperson := some (strOf ("admin")) }]
    (DBState.mk [] [UserRec.mk (strOf ("admin")) (strOf ("oldhash")) (strOf ("Salesperson"))])
    [{ emptySRow with Salesperson := some (strOf ("admin")) }]

/-- C6 counterexample: a concrete imported row with the Salesperson (and the
other three identifier) columns absent passes through the normalizer
unchanged and is appended to the sales store with no error reported — the
normalizer does not fail on an absent required identifier field, refuting
the claim at this input. -/
theorem claim_C6_counterexample :
    emptySRow.Salesperson = none
    ∧ normalizeRow emptySRow = emptySRow
    ∧ (sync_data_from_excel (some (Except.ok [emptySRow])) (DBState.mk [] [])).1.sales
        = [emptySRow]
    ∧ (sync_data_from_excel (some (Except.ok [emptySRow])) (DBState.mk [] [])).2
        = false := by
  refine ⟨rfl, rfl, rfl, rfl⟩

/-- C6 as amended: when a required identifier field is absent, the
normalization loop skips that column (`if col in df.columns`), the row
passes through with the field still absent, and sync appends it to the
sales table without reporting any error; no ValidationError exists. -/
theorem claim_C6_amended (r : SRow) (db : DBState) (df : List SRow) :
    (r.Salesperson = none → (normalizeRow r).Salesperson = none)
    ∧ (r.RegionManager = none → (normalizeRow r).RegionManager = none)
    ∧ (r.Region = none → (normalizeRow r).Region = none)
    ∧ (r.StoreLocation = none → (normalizeRow r).StoreLocation = none)
    ∧ (sync_data_from_excel (some (Except.ok df)) db).1.sales
        = db.sales ++ df.map normalizeRow
    ∧ (sync_data_from_excel (some (Except.ok df)) db).2 = false := by
  refine ⟨?_, ?_, ?_, ?_, rfl, rfl⟩ <;> (intro h; simp [normalizeRow, h])

/-- Closed witness for C6 as amended, at the all-absent concrete row. -/
theorem claim_C6_amended_witness :
    (emptySRow.Salesperson = none → (normalizeRow emptySRow).Salesperson = none)
    ∧ (emptySRow.RegionManager = none → (normalizeRow emptySRow).RegionManager = none)
    ∧ (emptySRow.Region = none → (normalizeRow emptySRow).Region = none)
    ∧ (emptySRow.StoreLocation = none → (normalizeRow emptySRow).StoreLocation = none)
    ∧ (sync_data_from_excel (some (Except.ok [emptySRow])) (DBState.mk [] [])).1.sales
        = ([] : List SRow) ++ [emptySRow].map normalizeRow
    ∧ (sync_data_from_excel (some (Except.ok [emptySRow])) (DBState.mk [] [])).2 = false :=
  claim_C6_amended emptySRow (DBState.mk [] []) [emptySRow]

/-- C4 counterexample: inserting with a generated OrderID that collides with
an existing row is not detected, regenerated, retried, or surfaced as a
conflict — the insert goes through and the store ends up with two rows
bearing the same OrderID, refuting both the retry behavior and the claimed
uniqueness consequence at this input. -/
theorem claim_C4_counterexample :
    ((addOrder [collidingRow] [] [] [] 1 0 0 [] [] 0 [] [] [] [] [] oidX []).filter
        (fun r => r.OrderID == oidX)).length = 2 := by
  decide

/-- C4 as amended: the insert performs no collision handling at all — even
when the generated OrderID already occurs in the table, the row is appended
unconditionally with that OrderID, incrementing the number of rows bearing
it; no regeneration, retry, or ConflictError exists, and OrderID uniqueness
rests solely on the timestamp resolution of the generator. -/
theorem claim_C4_amended (tbl : List SRow) (name c_type prod : Str) (qty : Int)
    (u_p disc : Rat) (reg loc : Str) (ship : Rat)
    (pay prom r_man ret user date : Str) (oid : Str)
    (h : ∃ r ∈ tbl, r.OrderID = oid) :
    addOrder tbl name c_type prod qty u_p disc reg loc ship pay prom r_man ret
        user oid date
      = tbl ++ [mkOrderRow name c_type prod qty u_p disc reg loc ship pay prom
          r_man ret user oid date]
    ∧ ((addOrder tbl name c_type prod qty u_p disc reg loc ship pay prom r_man
          ret user oid date).filter (fun r => r.OrderID == oid)).length
      = ((tbl.filter (fun r => r.OrderID == oid)).length) + 1 := by
  refine ⟨rfl, ?_⟩
  unfold addOrder
  rw [List.filter_append]
  simp [mkOrderRow]

/-- Closed witness for C4 as amended, at a concrete colliding table. -/
theorem claim_C4_amended_witness :
    addOrder [collidingRow] [] [] [] 1 0 0 [] [] 0 [] [] [] [] [] oidX []
      = [collidingRow] ++ [mkOrderRow [] [] [] 1 0 0 [] [] 0 [] [] [] [] [] oidX []]
    ∧ ((addOrder [collidingRow] [] [] [] 1 0 0 [] [] 0 [] [] [] [] [] oidX []).filter
          (fun r => r.OrderID == oidX)).length
      = (([collidingRow].filter (fun r => r.OrderID == oidX)).length) + 1 :=
  claim_C4_amended [collidingRow] [] [] [] 1 0 0 [] [] 0 [] [] [] [] [] [] oidX
    ⟨collidingRow, by decide, by decide⟩
theorem mem_insertSorted (x y : Str × Str) (l : List (Str × Str)) :
    x ∈ insertSorted y l ↔ x = y ∨ x ∈ l := by
  induction l with
  | nil => simp [insertSorted]
  | cons z zs ih =>
    unfold insertSorted
    split
    · simp [List.mem_cons]
    · simp only [List.mem_cons, ih]
      tauto

theorem mem_sortKeys (x : Str × Str) (l : List (Str × Str)) :
    x ∈ sortKeys l ↔ x ∈ l := by
  unfold sortKeys
  induction l with
  | nil => simp
  | cons z zs ih =>
    simp only [List.foldr_cons, mem_insertSorted, List.mem_cons, ih]

theorem foldl_idxmaxStep_spec (xs : List ((Str × Str) × Rat)) :
    ∀ b : (Str × Str) × Rat,
    (xs.foldl idxmaxStep b = b ∨ xs.foldl idxmaxStep b ∈ xs)
    ∧ b.2 ≤ (xs.foldl idxmaxStep b).2
    ∧ (∀ q ∈ xs, q.2 ≤ (xs.foldl idxmaxStep b).2)
    ∧ (xs.foldl idxmaxStep b = b
       ∨ ∃ l₁ l₂, xs = l₁ ++ (xs.foldl idxmaxStep b) :: l₂
           ∧ b.2 < (xs.foldl idxmaxStep b).2
           ∧ ∀ q ∈ l₁, q.2 < (xs.foldl idxmaxStep b).2) := by
  induction xs with
  | nil =>
    intro b
    exact ⟨Or.inl rfl, le_refl _, by simp, Or.inl rfl⟩
  | cons c rest ih =>
    intro b
    by_cases hbc : b.2 < c.2
    · have hstep : idxmaxStep b c = c := by unfold idxmaxStep; rw [if_pos hbc]
      obtain ⟨ihMem, ihLe, ihAll, ihFirst⟩ := ih c
      rw [List.foldl_cons, hstep]
      refine ⟨?_, ?_, ?_, ?_⟩
      · rcases ihMem with h | h
        · right; rw [h]; exact List.mem_cons_self c rest
        · right; exact List.mem_cons_of_mem c h
      · exact le_of_lt (lt_of_lt_of_le hbc ihLe)
      · intro q hq
        rcases List.mem_cons.mp hq with h | h
        · rw [h]; exact ihLe
        · exact ihAll q h
      · right
        rcases ihFirst with h | hex
        · refine ⟨[], rest, ?_, ?_, ?_⟩
          · rw [h]; rfl
          · rw [h]; exact hbc
          · intro q hq; simp at hq
        · obtain ⟨l₁, l₂, hsplit, hlt, hpref⟩ := hex
          refine ⟨c :: l₁, l₂, ?_, lt_trans hbc hlt, ?_⟩
          · rw [List.cons_append, ← hsplit]
          · intro q hq
            rcases List.mem_cons.mp hq with h | h
            · rw [h]; exact hlt
            · exact hpref q h
    · have hstep : idxmaxStep b c = b := by unfold idxmaxStep; rw [if_neg hbc]
      obtain ⟨ihMem, ihLe, ihAll, ihFirst⟩ := ih b
      rw [List.foldl_cons, hstep]
      have hcb : c.2 ≤ b.2 := le_of_not_lt hbc
      refine ⟨?_, ihLe, ?_, ?_⟩
      · rcases ihMem with h | h
        · left; exact h
        · right; exact List.mem_cons_of_mem c h
      · intro q hq
        rcases List.mem_cons.mp hq with h | h
        · rw [h]; exact le_trans hcb ihLe
        · exact ihAll q h
      · rcases ihFirst with h | hex
        · left; exact h
        · obtain ⟨l₁, l₂, hsplit, hlt, hpref⟩ := hex
          right
          refine ⟨c :: l₁, l₂, ?_, hlt, ?_⟩
          · rw [List.cons_append, ← hsplit]
          · intro q hq
            rcases List.mem_cons.mp hq with h | h
            · rw [h]; exact lt_of_le_of_lt hcb hlt
            · exact hpref q h

theorem idxmaxVal_spec (l : List ((Str × Str) × Rat)) (m : (Str × Str) × Rat)
    (h : idxmaxVal l = some m) :
    m ∈ l ∧ (∀ q ∈ l, q.2 ≤ m.2)
    ∧ ∃ l₁ l₂, l = l₁ ++ m :: l₂ ∧ ∀ q ∈ l₁, q.2 < m.2 := by
  cases l with
  | nil => simp [idxmaxVal] at h
  | cons x xs =>
    have hm : xs.foldl idxmaxStep x = m := by
      unfold idxmaxVal at h
      exact Option.some.inj h
    obtain ⟨sMem, sLe, sAll, sFirst⟩ := foldl_idxmaxStep_spec xs x
    rw [hm] at sMem sLe sAll sFirst
    refine ⟨?_, ?_, ?_⟩
    · rcases sMem with h2 | h2
      · rw [h2]; exact List.mem_cons_self x xs
      · exact List.mem_cons_of_mem x h2
    · intro q hq
      rcases List.mem_cons.mp hq with h2 | h2
      · rw [h2]; exact sLe
      · exact sAll q h2
    · rcases sFirst with h2 | hex
      · refine ⟨[], xs, ?_, ?_⟩
        · rw [h2]; rfl
        · intro q hq; simp at hq
      · obtain ⟨l₁, l₂, hsplit, hlt, hpref⟩ := hex
        refine ⟨x :: l₁, l₂, ?_, ?_⟩
        · rw [List.cons_append, ← hsplit]
        · intro q hq
          rcases List.mem_cons.mp hq with h3 | h3
          · rw [h3]; exact hlt
          · exact hpref q h3

theorem sumForKey_example_laptop :
    sumForKey exampleDf (strOf ("A"), strOf ("Laptop")) = 500 := by
  unfold sumForKey
  rw [show exampleDf.filter
      (fun r => r.StoreLocation == some (strOf ("A"), strOf ("Laptop")).1
        && r.Product == (strOf ("A"), strOf ("Laptop")).2)
      = [exRow ("A") ("Laptop") 200, exRow ("A") ("Laptop") 300] from by decide]
  simp [exRow, emptySRow]
  norm_num

theorem sumForKey_example_phone :
    sumForKey exampleDf (strOf ("A"), strOf ("Phone")) = 300 := by
  unfold sumForKey
  rw [show exampleDf.filter
      (fun r => r.StoreLocation == some (strOf ("A"), strOf ("Phone")).1
        && r.Product == (strOf ("A"), strOf ("Phone")).2)
      = [exRow ("A") ("Phone") 300] from by decide]
  simp [exRow, emptySRow]

theorem sumForKey_example_tablet :
    sumForKey exampleDf (strOf ("B"), strOf ("Tablet")) = 900 := by
  unfold sumForKey
  rw [show exampleDf.filter
      (fun r => r.StoreLocation == some (strOf ("B"), strOf ("Tablet")).1
        && r.Product == (strOf ("B"), strOf ("Tablet")).2)
      = [exRow ("B") ("Tablet") 900] from by decide]
  simp [exRow, emptySRow]

theorem groupedPairs_example :
    groupedPairs exampleDf
      = [((strOf ("A"), strOf ("Laptop")), 500),
         ((strOf ("A"), strOf ("Phone")), 300),
         ((strOf ("B"), strOf ("Tablet")), 900)] := by
  unfold groupedPairs
  rw [show groupKeys exampleDf
      = [(strOf ("A"), strOf ("Laptop")), (strOf ("A"), strOf ("Phone")),
         (strOf ("B"), strOf ("Tablet"))] from by decide]
  simp only [List.map_cons, List.map_nil]
  rw [sumForKey_example_laptop, sumForKey_example_phone, sumForKey_example_tablet]

theorem maxProductPerStore_example :
    maxProductPerStore exampleDf
      = [(strOf ("A"), strOf ("Laptop"), (500 : Rat)),
         (strOf ("B"), strOf ("Tablet"), (900 : Rat))] := by
  unfold maxProductPerStore
  rw [groupedPairs_example]
  decide

/-- C5: The max-product-per-store report groups by (StoreLocation, Product),
sums TotalPrice per pair, and selects per store the grouped row with the
largest sum, ties broken by the first-encountered group in the grouped
frame's scan order: every reported (store, product, value) triple is a
grouped pair whose value is that pair's TotalPrice sum, is maximal among its
store's grouped pairs, and is the first grouped row of its store attaining
that maximum; on the spec's example it yields A: Laptop 500 and
B: Tablet 900. -/
theorem claim_C5_max_product_per_store (df : List SRow) (s p : Str) (v : Rat)
    (h : (s, p, v) ∈ maxProductPerStore df) :
    ((s, p), v) ∈ groupedPairs df
    ∧ v = sumForKey df (s, p)
    ∧ (∀ q ∈ groupedPairs df, q.1.1 = s → q.2 ≤ v)
    ∧ (∃ l₁ l₂, (groupedPairs df).filter (fun q => q.1.1 == s)
          = l₁ ++ ((s, p), v) :: l₂ ∧ ∀ q ∈ l₁, q.2 < v)
    ∧ maxProductPerStore exampleDf
        = [(strOf ("A"), strOf ("Laptop"), (500 : Rat)),
           (strOf ("B"), strOf ("Tablet"), (900 : Rat))] := by
  unfold maxProductPerStore at h
  rw [List.mem_filterMap] at h
  obtain ⟨a, _ha, hmap⟩ := h
  rw [Option.map_eq_some'] at hmap
  obtain ⟨m, hsel, hout⟩ := hmap
  have has : a = s := congrArg (fun t => t.1) hout
  have hp2 : m.1.2 = p := congrArg (fun t => t.2.1) hout
  have hv2 : m.2 = v := congrArg (fun t => t.2.2) hout
  subst has
  obtain ⟨hmem, hall, l₁, l₂, hsplit, hpref⟩ := idxmaxVal_spec _ m hsel
  obtain ⟨hmemG, hfilt⟩ := List.mem_filter.mp hmem
  have hm11 : m.1.1 = a := by simpa using hfilt
  have hmeq : m = ((a, p), v) := Prod.ext (Prod.ext hm11 hp2) hv2
  refine ⟨hmeq ▸ hmemG, ?_, ?_, ?_, ?_⟩
  · have hg := hmemG
    rw [hmeq] at hg
    unfold groupedPairs at hg
    rw [List.mem_map] at hg
    obtain ⟨k, _hk, hkeq⟩ := hg
    have hk1 : k = (a, p) := congrArg (fun t => t.1) hkeq
    have hk2 : sumForKey df k = v := congrArg (fun t => t.2) hkeq
    rw [← hk2, hk1]
  · intro q hq hqs
    have hqf : q ∈ (groupedPairs df).filter (fun q => q.1.1 == a) :=
      List.mem_filter.mpr ⟨hq, by simp [hqs]⟩
    exact hv2 ▸ hall q hqf
  · exact ⟨l₁, l₂, by rw [← hmeq]; exact hsplit,
      fun q hq => hv2 ▸ hpref q hq⟩
  · exact maxProductPerStore_example

/-- Closed witness for C5 at the spec's example frame: the report contains
store A's Laptop row with sum 500, and that triple is indeed a grouped
pair. -/
theorem claim_C5_witness :
    (strOf ("A"), strOf ("Laptop"), (500 : Rat)) ∈ maxProductPerStore exampleDf
    ∧ ((strOf ("A"), strOf ("Laptop")), (500 : Rat)) ∈ groupedPairs exampleDf :=
  ⟨by rw [maxProductPerStore_example]; decide,
   (claim_C5_max_product_per_store exampleDf (strOf ("A")) (strOf ("Laptop")) 500
      (by rw [maxProductPerStore_example]; decide)).1⟩
